import Mathlib

/-!
Verification development for the hi-ml repository slice consisting of
`health_azure/himl_tensorboard.py` (the TensorBoard dashboard launcher) and
`testhisto/models/test_deepmil.py` (tests for the DeepMIL multiple-instance
learning module).  The launcher code is embedded directly from the source.
The `DeepMILModule` itself (`histopathology/models/deepmil.py`) is not part
of the given sources — only its tests are — so its operations are modelled
from the specification, with rationals standing for exact tensor arithmetic
and reals for the transcendental activation/loss functions.
-/

namespace HimlMIL

/-- Dot product of two rational vectors (feature arithmetic of the module). -/
def dot (xs ys : List ℚ) : ℚ :=
  (List.zipWith (· * ·) xs ys).sum

/-- Elementwise sum of a list of vectors (used to aggregate weighted features). -/
def vecSum : List (List ℚ) → List ℚ
  | [] => []
  | v :: vs =>
    match vecSum vs with
    | [] => v
    | w => List.zipWith (· + ·) v w

/-- Modelled from the spec: the `DeepMILModule` is constructed with a feature
encoder, an attention pooling layer (hidden and output dimensionality folded
into the scoring function), a class count `n_classes`, and a classification
head whose output dimension is `max(n_classes, 1)`.  The classification head
is an affine map, represented by its weight rows and bias, whose row count is
fixed at construction time to `max(n_classes, 1)`. -/
structure DeepMILModule where
  n_classes : ℕ
  encode : List ℚ → List ℚ
  attnScore : List ℚ → ℚ
  classifierW : List (List ℚ)
  classifierB : List ℚ
  hW : classifierW.length = max n_classes 1
  hB : classifierB.length = max n_classes 1

/-- Modelled from the spec: attention pooling produces one scalar weight per
instance (scores normalised across the bag) and the attention-weighted
aggregate feature vector. -/
def attentionPool (m : DeepMILModule) (feats : List (List ℚ)) :
    List ℚ × List ℚ :=
  let scores := feats.map m.attnScore
  let total := scores.sum
  let weights := scores.map (fun s => s / total)
  let agg := vecSum (List.zipWith (fun w f => f.map (fun x => w * x)) weights feats)
  (weights, agg)

/-- Modelled from the spec: `DeepMILModule.forward` (missing from the given
sources) encodes every instance of the bag independently, applies the
attention pooling strategy to obtain an aggregate feature vector plus one
weight per instance, and applies the classification head to the aggregate,
producing a logit vector of length `max(n_classes, 1)`.  Returns
(logits, attention weights). -/
def forward (m : DeepMILModule) (bag : List (List ℚ)) : List ℚ × List ℚ :=
  let feats := bag.map m.encode
  let pooled := attentionPool m feats
  let logits := List.zipWith (fun row b => dot row pooled.2 + b) m.classifierW m.classifierB
  (logits, pooled.1)

/-- Modelled from the spec: `get_bag_label` reduces the vector of per-instance
labels to the single bag label, defined as the maximum label present. -/
def get_bag_label (labels : List ℕ) : ℕ :=
  labels.foldl max 0

/-- The logistic sigmoid, the binary activation of the module. -/
noncomputable def sigmoid (x : ℝ) : ℝ :=
  1 / (1 + Real.exp (-x))

/-- Softmax over a logit vector, the multiclass activation of the module. -/
noncomputable def softmax (logits : List ℝ) : List ℝ :=
  logits.map (fun x => Real.exp x / (logits.map Real.exp).sum)

/-- Modelled from the spec: `activation_fn` (missing from the given sources)
is the sigmoid when the module is binary (`n_classes <= 1`) and the softmax
over classes otherwise. -/
noncomputable def activation_fn (n_classes : ℕ) (logits : List ℝ) : List ℝ :=
  if n_classes ≤ 1 then logits.map sigmoid else softmax logits

/-- Binary cross-entropy with logits, `nn.BCEWithLogitsLoss` without
weighting: `-(y log σ(x) + (1 - y) log(1 - σ(x)))`. -/
noncomputable def bceWithLogits (x y : ℝ) : ℝ :=
  -(y * Real.log (sigmoid x) + (1 - y) * Real.log (1 - sigmoid x))

/-- Binary cross-entropy with logits and a positive-class weight,
`nn.BCEWithLogitsLoss(pos_weight=pw)`:
`-(pw * y * log σ(x) + (1 - y) log(1 - σ(x)))`. -/
noncomputable def bceWithLogitsPosWeight (pw x y : ℝ) : ℝ :=
  -(pw * y * Real.log (sigmoid x) + (1 - y) * Real.log (1 - sigmoid x))

/-- Modelled from the spec: the positive-class weight the binary module
derives from `class_weights = [w0, w1]`, namely `w1 / (w0 + 1e-5)`. -/
noncomputable def pos_weight (w0 w1 : ℝ) : ℝ :=
  w1 / (w0 + 1e-5)

/-- Modelled from the spec: `loss_fn` (missing from the given sources) of the
binary module constructed with `class_weights = [w0, w1]` is binary
cross-entropy with logits using the derived positive-class weight. -/
noncomputable def loss_fn_binary (w0 w1 x y : ℝ) : ℝ :=
  bceWithLogitsPosWeight (pos_weight w0 w1) x y

/-- Hardening of a predicted probability against a decision threshold, as
thresholded metrics do before counting. -/
def hardPred (t p : ℚ) : ℕ :=
  if t ≤ p then 1 else 0

/-- Number of bags whose hardened prediction at threshold `t` equals the true
label. -/
def correctCount (t : ℚ) (probs : List ℚ) (labels : List ℕ) : ℚ :=
  (List.zipWith (fun p y => if hardPred t p = y then (1 : ℚ) else 0) probs labels).sum

/-- Modelled from the spec: a thresholded accuracy metric — the fraction of
bags whose hardened prediction matches the label — representing the
thresholded metrics (accuracy, precision, ...) whose decision threshold is a
configurable attribute. -/
def accuracyAt (t : ℚ) (probs : List ℚ) (labels : List ℕ) : ℚ :=
  correctCount t probs labels / (probs.length : ℚ)

/-- `torch.quantile` with the default linear interpolation: sort the values,
take position `q * (n - 1)` and interpolate between the neighbouring sorted
entries. -/
def quantile (l : List ℚ) (q : ℚ) : ℚ :=
  let s := l.insertionSort (· ≤ ·)
  match s with
  | [] => 0
  | _ :: _ =>
    let pos : ℚ := q * ((s.length : ℚ) - 1)
    let i : ℕ := ⌊pos⌋.toNat
    let lo := s.getD i 0
    let hi := s.getD (min (i + 1) (s.length - 1)) 0
    lo + (pos - (i : ℚ)) * (hi - lo)

/-- One bag of the collated test batch: per-tile identifiers, image feature
vectors and (shared) labels. -/
structure Bag where
  slide_id : String
  tile_ids : List String
  images : List (List ℚ)
  labels : List ℕ
  paths : List String

/-- A classification metric as the accumulator object the metrics library
supplies: an initial state, an `update` consuming a batch of predicted
probabilities and true labels, and a `compute` finalising the state. -/
structure Metric (S V : Type) where
  init : S
  update : S → List ℝ × List ℕ → S
  compute : S → V

/-- The predicted probability `test_step` produces for one bag of the binary
module: the sigmoid of the bag's single logit. -/
noncomputable def bagProb (m : DeepMILModule) (bag : Bag) : ℝ :=
  sigmoid ((forward m bag.images).1.headD 0 : ℚ)

/-- The result record `test_step` returns: at minimum the predicted
probabilities and true labels of the batch (one entry per bag). -/
structure StepResults where
  prob : List ℝ
  true_label : List ℕ

/-- Modelled from the spec: the forward half of `DeepMILModule.test_step`
(missing from the given sources) — run the forward pass on every bag of the
batch, apply the activation, and reduce the instance labels of each bag with
`get_bag_label`. -/
noncomputable def test_step_results (m : DeepMILModule) (batch : List Bag) :
    StepResults :=
  { prob := batch.map (bagProb m)
    true_label := batch.map (fun bag => get_bag_label bag.labels) }

/-- Modelled from the spec: the metric half of `DeepMILModule.test_step` —
every test-metric accumulator is updated with the batch's predicted
probabilities and true labels, the same values the returned result record
carries. -/
noncomputable def test_step_metric_state {S V : Type} (metric : Metric S V)
    (s : S) (m : DeepMILModule) (batch : List Bag) : S :=
  metric.update s
    (batch.map (bagProb m), batch.map (fun bag => get_bag_label bag.labels))

end HimlMIL

namespace HimlTB

/-- A resolved AML run; only its id is used by the launcher. -/
structure Run where
  id : String
deriving DecidableEq, Repr

/-- `os.path.join` on the two-argument paths the launcher builds. -/
def pathJoin (a b : String) : String := a ++ "/" ++ b

/-- The state of `WrappedTensorboard` relevant to `start`: the constructor
arguments (`remote_root`, `runs`, `local_root`, `port`). -/
structure WrappedTensorboard where
  remote_root : String
  runs : List Run
  local_root : String
  port : String
deriving Repr

/-- The `run_id:local_dir` entries accumulated by the loop in
`WrappedTensorboard.start` (one per monitored run, where the local directory
is `local_root/run.id`). -/
def localLogDirs (ts : WrappedTensorboard) : List String :=
  ts.runs.map (fun r => r.id ++ ":" ++ pathJoin ts.local_root r.id)

/-- The fixed head of the subprocess command built by
`WrappedTensorboard.start`: the interpreter, the tensorboard module, and the
port flag. -/
def tbBaseCommand (ts : WrappedTensorboard) : List String :=
  ["python", "-m", "tensorboard.main", "--port", ts.port]

/-- The full subprocess command built by `WrappedTensorboard.start`.  With
more than one run it appends `--logdir_spec` and the comma-joined directory
entries; otherwise it appends `--logdir` and `run_local_root`, the loop
variable left bound from the last iteration.  With zero runs that variable is
unbound (a Python `NameError`), modelled as `none`. -/
def startCommand (ts : WrappedTensorboard) : Option (List String) :=
  match ts.runs.getLast? with
  | none => none
  | some lastRun =>
    let dirs := localLogDirs ts
    if 1 < dirs.length then
      some (tbBaseCommand ts ++ ["--logdir_spec", String.intercalate "," dirs])
    else
      some (tbBaseCommand ts ++ ["--logdir", pathJoin ts.local_root lastRun.id])

/-- The mutable state `WrappedTensorboard.start` touches: the subprocess
handle guard `_tb_proc` (holding the launched command), and the resources it
creates (`_executor`, `_event`, `_session`, `_run_watchers`, submitted
worker tasks). -/
structure TBProcState where
  tb_proc : Option (List String)
  executor_created : Bool
  event_created : Bool
  session_created : Bool
  run_watchers : List Run
  submitted_tasks : ℕ
deriving DecidableEq, Repr

/-- The initial state of a freshly constructed `WrappedTensorboard`. -/
def TBProcState.initial : TBProcState :=
  { tb_proc := none
    executor_created := false
    event_created := false
    session_created := false
    run_watchers := []
    submitted_tasks := 0 }

/-- `WrappedTensorboard.start` as a state transition.  If `_tb_proc` is
already non-`None` it returns `None` immediately, creating nothing.
Otherwise it creates the executor, shutdown event and HTTP session, one run
watcher per run, submits one worker task per watcher, launches the
subprocess, and returns the url reported by `_wait_for_url` (a parameter
here, since it polls the external process).  An empty run list makes the
command construction fail (`NameError`), modelled as `Except.error`. -/
def start (ts : WrappedTensorboard) (s : TBProcState) (url : String) :
    Except Unit (Option String × TBProcState) :=
  if s.tb_proc.isSome then
    Except.ok (none, s)
  else
    match startCommand ts with
    | none => Except.error ()
    | some cmd =>
      Except.ok (some url,
        { tb_proc := some cmd
          executor_created := true
          event_created := true
          session_created := true
          run_watchers := ts.runs
          submitted_tasks := ts.runs.length })

/-- The command-line arguments of `himl_tensorboard.main`, with the defaults
from the parser. -/
structure Args where
  config_file : String := "config.json"
  port : Int := 6006
  log_dir : String := "outputs"
  latest_run_file : Option String := none
  experiment : Option String := none
  num_runs : Int := 1
  tags : Option (List String) := none
  run_recovery_ids : List String := []
  run_ids : List String := []
deriving Repr

/-- The external world `main` consults: whether the workspace config file
exists, and the runs resolved by `get_aml_runs` for the given arguments. -/
structure Env where
  config_file_is_file : Bool
  resolved_runs : List Run
deriving Repr

/-- The configuration errors `main` can raise (as `ValueError`). -/
inductive MainError where
  | invalidConfigFile
  | noRunsFound
deriving DecidableEq, Repr

/-- What a successful `main` has done by the time it blocks on user input:
the `WrappedTensorboard` it constructed and the subprocess command its
`start` launched. -/
structure MainResult where
  tensorboard : WrappedTensorboard
  launched_command : Option (List String)
deriving Repr

/-- `himl_tensorboard.main`: validate the config file, resolve the runs,
raise `ValueError` if none were found, then construct the
`WrappedTensorboard` — with the port hardcoded to the string `'6006'`,
ignoring `args.port` — and start it.  `root` stands for `ROOT_DIR`
(`Path.cwd()`). -/
def main (root : String) (args : Args) (env : Env) : Except MainError MainResult :=
  if ¬ env.config_file_is_file then
    Except.error MainError.invalidConfigFile
  else
    let runs := env.resolved_runs
    if runs.length = 0 then
      Except.error MainError.noRunsFound
    else
      let local_logs_dir := pathJoin root args.log_dir
      let ts : WrappedTensorboard :=
        { remote_root := args.log_dir ++ "/"
          runs := runs
          local_root := local_logs_dir
          port := "6006" }
      Except.ok { tensorboard := ts, launched_command := startCommand ts }

/-- The value following the first `"--port"` element of a launched command,
i.e. the port the subprocess is bound to. -/
def portArgOf : List String → Option String
  | [] => none
  | [_] => none
  | x :: y :: rest => if x = "--port" then some y else portArgOf (y :: rest)

/-- The port of the subprocess command that `main` launches (`none` when
`main` raises or the command has no port flag). -/
def launchedPort (root : String) (args : Args) (env : Env) : Option String :=
  match main root args env with
  | Except.error _ => none
  | Except.ok res => res.launched_command.bind portArgOf

/-- Concrete arguments invoking the launcher with `--port 1234`. -/
def portArgs : Args := { port := 1234 }

/-- Concrete environment: the config file exists and one run was resolved. -/
def oneRunEnv : Env := { config_file_is_file := true, resolved_runs := [⟨"run1"⟩] }

/-- A concrete wrapper monitoring two runs. -/
def tsTwoRuns : WrappedTensorboard :=
  { remote_root := "outputs/"
    runs := [⟨"a"⟩, ⟨"b"⟩]
    local_root := "./outputs"
    port := "6006" }

/-- A concrete wrapper monitoring a single run. -/
def tsOneRun : WrappedTensorboard :=
  { remote_root := "outputs/"
    runs := [⟨"a"⟩]
    local_root := "./outputs"
    port := "6006" }

/-- A state in which the tensorboard subprocess is already running. -/
def runningState : TBProcState :=
  { TBProcState.initial with tb_proc := some ["cmd"] }

end HimlTB

namespace HimlMIL

/-- A concrete two-class module used to exercise the shape theorems. -/
def demoModule : DeepMILModule where
  n_classes := 2
  encode := id
  attnScore := fun v => v.sum
  classifierW := [[1], [0]]
  classifierB := [0, 0]
  hW := by decide
  hB := by decide

/-- A concrete metric accumulator (counts processed labels). -/
def countMetric : Metric ℕ ℕ :=
  { init := 0
    update := fun s pr => s + pr.2.length
    compute := id }

/-- A concrete five-tile bag with positive label. -/
def demoBag : Bag :=
  { slide_id := "0"
    tile_ids := ["0-0", "0-1", "0-2", "0-3", "0-4"]
    images := List.replicate 5 [1]
    labels := List.replicate 5 1
    paths := ["0-0.png", "0-1.png", "0-2.png", "0-3.png", "0-4.png"] }

/-- A concrete batch of 20 five-tile bags with binary labels. -/
def demoBatch : List Bag := List.replicate 20 demoBag

end HimlMIL

namespace HimlTB

/-- C4: if the resolved run list is empty (and the config file was found, so
execution reaches run resolution), `main` raises the `No runs were found`
configuration error, and in particular never reaches the construction of the
`WrappedTensorboard` or the launch of a visualization subprocess: no
`MainResult` is produced. -/
theorem main_errors_on_zero_runs (root : String) (args : Args) (env : Env)
    (hconfig : env.config_file_is_file = true)
    (hruns : env.resolved_runs = []) :
    main root args env = Except.error MainError.noRunsFound ∧
      ∀ res : MainResult, main root args env ≠ Except.ok res := by
  have h : main root args env = Except.error MainError.noRunsFound := by
    simp [main, hconfig, hruns]
  exact ⟨h, fun res hres => by rw [h] at hres; exact Except.noConfusion hres⟩

/-- Witness for C4 at a concrete environment with zero resolved runs. -/
theorem main_errors_on_zero_runs_witness :
    main "." {} { config_file_is_file := true, resolved_runs := [] }
        = Except.error MainError.noRunsFound ∧
      ∀ res : MainResult,
        main "." {} { config_file_is_file := true, resolved_runs := [] }
          ≠ Except.ok res :=
  main_errors_on_zero_runs "." {} _ rfl rfl

/-- C8: `main` parses `--port` but constructs the `WrappedTensorboard` with
the hardcoded string `'6006'`, so with `--port 1234` the launched subprocess
command is still bound to port 6006, not 1234. -/
theorem main_ignores_port_flag :
    portArgs.port = 1234 ∧
      launchedPort "." portArgs oneRunEnv = some "6006" ∧
      ("6006" : String) ≠ "1234" := by
  refine ⟨rfl, ?_, by decide⟩
  rfl

/-- C9: with more than one monitored run, `WrappedTensorboard.start` launches
the subprocess with `--logdir_spec` and the comma-joined `run_id:local_dir`
entries; with exactly one run it launches with `--logdir` pointing at that
run's local directory. -/
theorem startCommand_logdir_selection (ts : WrappedTensorboard) :
    (1 < ts.runs.length →
        startCommand ts = some (tbBaseCommand ts
          ++ ["--logdir_spec", String.intercalate "," (localLogDirs ts)])) ∧
      ∀ r : Run, ts.runs = [r] →
        startCommand ts = some (tbBaseCommand ts
          ++ ["--logdir", pathJoin ts.local_root r.id]) := by
  constructor
  · intro h
    cases hL : ts.runs.getLast? with
    | none =>
      rw [List.getLast?_eq_none_iff] at hL
      rw [hL] at h
      simp at h
    | some lastRun =>
      have hlen : (localLogDirs ts).length = ts.runs.length := by
        simp [localLogDirs]
      simp only [startCommand, hL]
      rw [if_pos (hlen ▸ h)]
  · intro r hr
    simp [startCommand, hr, localLogDirs]

/-- Witness for C9: the multi-run branch on a two-run wrapper and the
single-run branch on a one-run wrapper, both evaluated concretely. -/
theorem startCommand_logdir_selection_witness :
    startCommand tsTwoRuns = some (tbBaseCommand tsTwoRuns
        ++ ["--logdir_spec", String.intercalate "," (localLogDirs tsTwoRuns)]) ∧
      startCommand tsOneRun = some (tbBaseCommand tsOneRun
        ++ ["--logdir", pathJoin tsOneRun.local_root "a"]) :=
  ⟨(startCommand_logdir_selection tsTwoRuns).1 (by decide),
    (startCommand_logdir_selection tsOneRun).2 ⟨"a"⟩ (by decide)⟩

/-- C10: calling `start` while `_tb_proc` is already non-`None` returns
`None` and leaves the state exactly as it was: no executor, event, session,
run watchers or subprocess are created and no worker tasks are submitted. -/
theorem start_noop_when_already_running (ts : WrappedTensorboard)
    (s : TBProcState) (url : String) (c : List String)
    (h : s.tb_proc = some c) :
    start ts s url = Except.ok (none, s) := by
  simp [start, h]

/-- Witness for C10 on a concrete running state. -/
theorem start_noop_when_already_running_witness :
    start tsOneRun runningState "http://localhost:6006"
      = Except.ok (none, runningState) :=
  start_noop_when_already_running tsOneRun runningState
    "http://localhost:6006" ["cmd"] rfl

end HimlTB

namespace HimlMIL

/-- C1: for every bag of size `n ≥ 1` and class count `n_classes ≥ 1`,
`forward` returns a logits vector of length `max(n_classes, 1)` together
with an attention-weight vector of length equal to the bag size `n`. -/
theorem forward_output_lengths (m : DeepMILModule) (bag : List (List ℚ))
    (n : ℕ) (hn : 1 ≤ n) (hbag : bag.length = n) (hc : 1 ≤ m.n_classes) :
    (forward m bag).1.length = max m.n_classes 1 ∧
      (forward m bag).2.length = n := by
  constructor
  · simp [forward, List.length_zipWith, m.hW, m.hB]
  · simp [forward, attentionPool, hbag]

/-- Witness for C1 on the concrete two-class module and a one-tile bag. -/
theorem forward_output_lengths_witness :
    (forward demoModule [[1]]).1.length = max demoModule.n_classes 1 ∧
      (forward demoModule [[1]]).2.length = 1 :=
  forward_output_lengths demoModule [[1]] 1 (by decide) (by decide) (by decide)

/-- `List.foldl max` starting from `a` yields `a` or a list element, is at
least `a`, and dominates every list element. -/
theorem foldl_max_spec (l : List ℕ) (a : ℕ) :
    (l.foldl max a = a ∨ l.foldl max a ∈ l) ∧
      a ≤ l.foldl max a ∧ ∀ x ∈ l, x ≤ l.foldl max a := by
  induction l generalizing a with
  | nil => exact ⟨Or.inl rfl, le_refl _, by simp⟩
  | cons b t ih =>
    have h := ih (max a b)
    refine ⟨?_, le_trans (le_max_left a b) h.2.1, ?_⟩
    · rcases h.1 with h1 | h1
      · rcases max_choice a b with hm | hm
        · exact Or.inl (by rw [List.foldl_cons, h1, hm])
        · exact Or.inr (by rw [List.foldl_cons, h1, hm]; exact List.mem_cons_self _ _)
      · exact Or.inr (List.mem_cons_of_mem _ h1)
    · intro x hx
      rcases List.mem_cons.mp hx with hxb | hxt
      · rw [hxb]; exact le_trans (le_max_right a b) h.2.1
      · exact h.2.2 x hxt

/-- C6: for every non-empty vector of per-instance labels, `get_bag_label`
returns the maximum label present in the vector: the result is an element of
the vector and dominates every element.  (It is a pure function, hence
deterministic and without side effects.) -/
theorem get_bag_label_is_max (l : List ℕ) (h : l ≠ []) :
    get_bag_label l ∈ l ∧ ∀ x ∈ l, x ≤ get_bag_label l := by
  cases l with
  | nil => exact absurd rfl h
  | cons b t =>
    have hg : get_bag_label (b :: t) = t.foldl max b := by
      simp [get_bag_label]
    have hs := foldl_max_spec t b
    constructor
    · rcases hs.1 with h1 | h1
      · rw [hg, h1]; exact List.mem_cons_self _ _
      · rw [hg]; exact List.mem_cons_of_mem _ h1
    · intro x hx
      rw [hg]
      rcases List.mem_cons.mp hx with hxb | hxt
      · rw [hxb]; exact hs.2.1
      · exact hs.2.2 x hxt

/-- Witness for C6 on a concrete label vector. -/
theorem get_bag_label_is_max_witness :
    get_bag_label [2, 5, 3] ∈ [2, 5, 3] ∧
      ∀ x ∈ [2, 5, 3], x ≤ get_bag_label [2, 5, 3] :=
  get_bag_label_is_max [2, 5, 3] (by decide)

end HimlMIL

namespace HimlMIL

/-- C3: for the binary module constructed with `class_weights = [w0, w1]`,
the loss at a positive bag label equals `pos_weight` times the unweighted
binary cross-entropy-with-logits loss, and the loss at a negative bag label
equals the unweighted loss, where `pos_weight = w1 / (w0 + 1e-5)`. -/
theorem loss_fn_binary_class_weighting (w0 w1 x : ℝ) :
    loss_fn_binary w0 w1 x 1 = pos_weight w0 w1 * bceWithLogits x 1 ∧
      loss_fn_binary w0 w1 x 0 = bceWithLogits x 0 := by
  refine ⟨?_, ?_⟩ <;>
    · unfold loss_fn_binary bceWithLogitsPosWeight bceWithLogits
      ring

/-- The sigmoid takes values in `[0, 1]`. -/
theorem sigmoid_mem_unit (x : ℝ) : 0 ≤ sigmoid x ∧ sigmoid x ≤ 1 := by
  have hexp : 0 < Real.exp (-x) := Real.exp_pos _
  constructor
  · unfold sigmoid
    positivity
  · unfold sigmoid
    rw [div_le_one (by linarith)]
    linarith

/-- Summing a list after dividing every entry by a constant divides the sum
by that constant. -/
theorem list_sum_map_div (l : List ℝ) (f : ℝ → ℝ) (c : ℝ) :
    (l.map (fun x => f x / c)).sum = (l.map f).sum / c := by
  induction l with
  | nil => simp
  | cons a t ih => simp [ih, add_div]

/-- C7: for every logits input, `activation_fn` returns values that all lie
in `[0, 1]` elementwise; in the multiclass case (`n_classes > 1`, so the
logit vector is nonempty) the outputs additionally sum to 1 across
classes. -/
theorem activation_fn_range_and_sum (n_classes : ℕ) (logits : List ℝ) :
    (∀ p ∈ activation_fn n_classes logits, 0 ≤ p ∧ p ≤ 1) ∧
      (1 < n_classes → logits ≠ [] →
        (activation_fn n_classes logits).sum = 1) := by
  constructor
  · intro p hp
    unfold activation_fn at hp
    by_cases hc : n_classes ≤ 1
    · rw [if_pos hc] at hp
      obtain ⟨x, _, hx⟩ := List.mem_map.mp hp
      exact hx ▸ sigmoid_mem_unit x
    · rw [if_neg hc] at hp
      unfold softmax at hp
      obtain ⟨x, hxmem, hx⟩ := List.mem_map.mp hp
      have hS_nonneg : 0 ≤ (logits.map Real.exp).sum :=
        List.sum_nonneg (fun y hy => by
          obtain ⟨z, _, hz⟩ := List.mem_map.mp hy
          exact hz ▸ (Real.exp_pos z).le)
      have hle : Real.exp x ≤ (logits.map Real.exp).sum :=
        List.single_le_sum
          (fun y hy => by
            obtain ⟨z, _, hz⟩ := List.mem_map.mp hy
            exact hz ▸ (Real.exp_pos z).le)
          _ (List.mem_map.mpr ⟨x, hxmem, rfl⟩)
      have hS_pos : 0 < (logits.map Real.exp).sum :=
        lt_of_lt_of_le (Real.exp_pos x) hle
      constructor
      · exact hx ▸ div_nonneg (Real.exp_pos x).le hS_nonneg
      · rw [← hx, div_le_one hS_pos]
        exact hle
  · intro hc hne
    unfold activation_fn
    rw [if_neg (by omega)]
    unfold softmax
    have hS_pos : 0 < (logits.map Real.exp).sum := by
      refine List.sum_pos _ (fun y hy => ?_) (by simpa using hne)
      obtain ⟨z, _, hz⟩ := List.mem_map.mp hy
      exact hz ▸ Real.exp_pos z
    rw [list_sum_map_div]
    exact div_self (ne_of_gt hS_pos)

/-- Witness for C7: the softmax of a concrete two-class logit vector sums
to 1. -/
theorem activation_fn_range_and_sum_witness :
    (activation_fn 2 [(0 : ℝ), 0]).sum = 1 :=
  (activation_fn_range_and_sum 2 [0, 0]).2 (by norm_num) (by simp)

end HimlMIL

namespace HimlMIL

/-- C5 counterexample: a batch of predicted probabilities with genuine
spread between its 0.1 and 0.9 quantiles (13/50 < 37/50) on which the
thresholded accuracy metric computes the same value (3/4) at the low and at
the high decile threshold, because the two prediction flips between the
thresholds cancel: one flip gains a correct prediction and the other loses
one. -/
theorem threshold_decile_same_value_counterexample :
    quantile [1/5, 2/5, 3/5, 4/5] (1/10) < quantile [1/5, 2/5, 3/5, 4/5] (9/10) ∧
      accuracyAt (quantile [1/5, 2/5, 3/5, 4/5] (1/10))
          [1/5, 2/5, 3/5, 4/5] [0, 1, 0, 1]
        = accuracyAt (quantile [1/5, 2/5, 3/5, 4/5] (9/10))
            [1/5, 2/5, 3/5, 4/5] [0, 1, 0, 1] := by
  have h1 : quantile [1/5, 2/5, 3/5, 4/5] (1/10) = 13/50 := by
    norm_num [quantile, List.insertionSort, List.orderedInsert,
      show (0 : ℤ).toNat = 0 from rfl]
  have h2 : quantile [1/5, 2/5, 3/5, 4/5] (9/10) = 37/50 := by
    norm_num [quantile, List.insertionSort, List.orderedInsert,
      show (2 : ℤ).toNat = 2 from rfl]
  rw [h1, h2]
  constructor
  · norm_num
  · norm_num [accuracyAt, correctCount, hardPred]

/-- C5 amended: for the thresholded accuracy metric over a non-empty batch,
the computed values at two thresholds differ exactly when the counts of
correct hardened predictions differ, and whenever some predicted probability
lies at or above the first threshold and strictly below the second, the
hardened prediction vectors themselves differ — so a threshold change with
spread always changes the predictions, but changes the computed value only
when the flips do not cancel. -/
theorem threshold_change_value_iff (t1 t2 : ℚ) (probs : List ℚ)
    (labels : List ℕ) (hne : probs ≠ []) :
    (accuracyAt t1 probs labels = accuracyAt t2 probs labels ↔
        correctCount t1 probs labels = correctCount t2 probs labels) ∧
      ∀ p ∈ probs, t1 ≤ p → p < t2 →
        probs.map (hardPred t1) ≠ probs.map (hardPred t2) := by
  constructor
  · have hlen : (probs.length : ℚ) ≠ 0 :=
      Nat.cast_ne_zero.mpr (List.length_pos.mpr hne).ne'
    constructor
    · intro h
      unfold accuracyAt at h
      rw [div_eq_div_iff hlen hlen] at h
      exact mul_right_cancel₀ hlen h
    · intro h
      unfold accuracyAt
      rw [h]
  · intro p hp h1 h2 hcontra
    have hpoint : hardPred t1 p = hardPred t2 p := by
      have := List.map_inj_left.mp hcontra
      exact this p hp
    rw [hardPred, hardPred, if_pos h1, if_neg (not_le.mpr h2)] at hpoint
    exact absurd hpoint (by decide)

/-- Witness for C5 amended at the counterexample batch: the value-change
criterion at the decile thresholds, and the change of hardened predictions
forced by the probability 2/5 lying between them. -/
theorem threshold_change_value_iff_witness :
    (accuracyAt (13/50) [1/5, 2/5, 3/5, 4/5] [0, 1, 0, 1]
        = accuracyAt (37/50) [1/5, 2/5, 3/5, 4/5] [0, 1, 0, 1] ↔
      correctCount (13/50) [1/5, 2/5, 3/5, 4/5] [0, 1, 0, 1]
        = correctCount (37/50) [1/5, 2/5, 3/5, 4/5] [0, 1, 0, 1]) ∧
      ([1/5, 2/5, 3/5, 4/5].map (hardPred (13/50))
        ≠ [1/5, 2/5, 3/5, 4/5].map (hardPred (37/50))) :=
  ⟨(threshold_change_value_iff (13/50) (37/50) [1/5, 2/5, 3/5, 4/5]
      [0, 1, 0, 1] (by simp)).1,
    (threshold_change_value_iff (13/50) (37/50) [1/5, 2/5, 3/5, 4/5]
      [0, 1, 0, 1] (by simp)).2 (2/5) (by norm_num) (by norm_num) (by norm_num)⟩

end HimlMIL

namespace HimlMIL

/-- C2: for a batch of 20 bags of 5 tiles each with binary bag labels, after
running `test_step` once on the batch, every module-internal test metric's
computed value equals the value obtained by feeding the returned predicted
probabilities and true labels into an independently constructed instance of
the same metric (a fresh accumulator updated once with the result record's
`prob` and `true_label`). -/
theorem test_metrics_match_independent {S V : Type} (metric : Metric S V)
    (m : DeepMILModule) (batch : List Bag)
    (hsize : batch.length = 20)
    (hbags : ∀ b ∈ batch, b.images.length = 5 ∧ b.labels.length = 5)
    (hbinary : ∀ b ∈ batch, ∀ y ∈ b.labels, y ≤ 1) :
    metric.compute (test_step_metric_state metric metric.init m batch)
      = metric.compute (metric.update metric.init
          ((test_step_results m batch).prob,
            (test_step_results m batch).true_label)) := by
  unfold test_step_metric_state test_step_results
  rfl

/-- Witness for C2 on a concrete batch of 20 five-tile bags with binary
labels and a concrete counting metric. -/
theorem test_metrics_match_independent_witness :
    countMetric.compute
        (test_step_metric_state countMetric countMetric.init demoModule demoBatch)
      = countMetric.compute (countMetric.update countMetric.init
          ((test_step_results demoModule demoBatch).prob,
            (test_step_results demoModule demoBatch).true_label)) :=
  test_metrics_match_independent countMetric demoModule demoBatch
    (by decide) (by decide) (by decide)

end HimlMIL
